import Mathlib

set_option maxRecDepth 100000

/-!
Verification of the Financial Narrative Extraction Engine
(`src/enhanced_parse_transcripts.py`) against its specification.

The Python source is shallowly embedded below.  Conventions of the
embedding:

* Strings are Lean `String`s; all character-level work happens on
  `List Char` with structural recursion so that every definition is
  kernel-computable.
* Python `float` arithmetic is modelled by exact rational arithmetic:
  a parsed numeric literal is kept as a decimal mantissa/exponent pair
  `(m, e)` denoting `m / 10^e`, and Python's `round(x, 3)` (round half
  to even on the value) is modelled exactly on such pairs.  All the
  concrete values appearing in the specification's examples are exactly
  representable, so no double-rounding discrepancy arises for them.
* Python regular expressions are embedded as an explicit syntax tree
  (`RE`) together with a backtracking matcher that mirrors Python `re`
  semantics (leftmost match, left-to-right alternation, greedy/lazy
  quantifiers, capture groups, word boundaries).  Case-insensitive
  patterns are matched against the lower-cased text, which is
  observationally equivalent for every use in the source.
* The spaCy sentence splitter (`doc.sents`) is an external component;
  functions that use it take the splitter as an explicit parameter
  `sents : String → List String`.
-/

/-! ### Character and list utilities -/

/-- ASCII whitespace recognised by Python's `\s`, `str.split()` and
`str.strip()` (restricted to the ASCII range used by the transcripts). -/
def isPyWs (c : Char) : Bool :=
  c == ' ' || c == '\t' || c == '\n' || c == '\r' || c == '\x0b' || c == '\x0c'

/-- Python `\w`: ASCII letters, digits and underscore. -/
def isPyWord (c : Char) : Bool :=
  c.isAlphanum || c == '_'

/-- Lower-case a character list (ASCII, as `str.lower` behaves on the
transcripts' character set). -/
def lowerL (l : List Char) : List Char := l.map Char.toLower

/-- Upper-case a character list. -/
def upperL (l : List Char) : List Char := l.map Char.toUpper

/-- Does `pre` occur as a prefix of `l`? -/
def isPre : List Char → List Char → Bool
  | [], _ => true
  | _ :: _, [] => false
  | a :: as', b :: bs => a == b && isPre as' bs

/-- Does `pat` occur as a contiguous substring of `l`?  Models Python's
`pat in s`. -/
def listContainsSub (l pat : List Char) : Bool :=
  match l with
  | [] => isPre pat []
  | _ :: rest => isPre pat l || listContainsSub rest pat

/-- Split a character list at every occurrence of the separator
character, keeping empty segments (Python `str.split(sep)`). -/
def splitOnCharAux (sep : Char) : List Char → List Char → List (List Char)
  | [], acc => [acc.reverse]
  | c :: cs, acc =>
    if c == sep then acc.reverse :: splitOnCharAux sep cs []
    else splitOnCharAux sep cs (c :: acc)

/-- Split on a separator character (Python `str.split(sep)`: never
returns an empty list, keeps empty segments). -/
def splitOnChar (sep : Char) (l : List Char) : List (List Char) :=
  splitOnCharAux sep l []

/-- Split on runs of whitespace, discarding empties (Python
`str.split()` with no argument). -/
def splitWsAux : List Char → List Char → List (List Char)
  | [], acc => if acc.isEmpty then [] else [acc.reverse]
  | c :: cs, acc =>
    if isPyWs c then
      if acc.isEmpty then splitWsAux cs [] else acc.reverse :: splitWsAux cs []
    else splitWsAux cs (c :: acc)

/-- Python `str.split()` (no argument). -/
def splitWs (l : List Char) : List (List Char) := splitWsAux l []

/-- Join character lists with a separator character. -/
def joinWithChar (sep : Char) : List (List Char) → List Char
  | [] => []
  | [x] => x
  | x :: xs => x ++ sep :: joinWithChar sep xs

/-- Remove every occurrence of the given characters
(Python `s.replace(c₁, "").replace(c₂, "")`). -/
def removeChars (cs : List Char) (l : List Char) : List Char :=
  l.filter (fun c => !(cs.contains c))

/-- Python `str.strip()`. -/
def trimWsL (l : List Char) : List Char :=
  ((l.dropWhile isPyWs).reverse.dropWhile isPyWs).reverse

/-! ### The Text Normalizer (`clean_text`, source lines 16–17)

`clean_text(text)` is
`re.sub(r'\s+', ' ', text.replace('\n', ' ')).strip()`. -/

/-- Map `\n` to a space (Python `text.replace('\n', ' ')`). -/
def replNl (c : Char) : Char := if c == '\n' then ' ' else c

/-- Replace every maximal run of whitespace by a single space
(Python `re.sub(r'\s+', ' ', ·)`).  The flag records whether we are
currently inside a whitespace run. -/
def collapseWsAux : Bool → List Char → List Char
  | _, [] => []
  | inRun, c :: cs =>
    if isPyWs c then
      if inRun then collapseWsAux true cs
      else ' ' :: collapseWsAux true cs
    else c :: collapseWsAux false cs

/-- The Text Normalizer (`clean_text`). -/
def clean_text (s : String) : String :=
  String.mk (trimWsL (collapseWsAux false ((s.data.map replNl))))

/-! ### Exact decimal arithmetic and Python `round(·, 3)` -/

/-- Round `x / 10^b` to the nearest integer, ties to even
(the rounding performed by Python's builtin `round` on exact values). -/
def roundHalfEvenDiv (x : ℤ) (b : ℕ) : ℤ :=
  if 2 * x.fmod ((10 : ℤ) ^ b) < (10 : ℤ) ^ b then x.fdiv ((10 : ℤ) ^ b)
  else if (10 : ℤ) ^ b < 2 * x.fmod ((10 : ℤ) ^ b) then x.fdiv ((10 : ℤ) ^ b) + 1
  else if x.fdiv ((10 : ℤ) ^ b) % 2 = 0 then x.fdiv ((10 : ℤ) ^ b)
  else x.fdiv ((10 : ℤ) ^ b) + 1

/-- Given a value `num / 10^exp`, return `round(value * 1000)` as an
integer: the value in thousandths, rounded half to even.  `round(v, 3)`
is then this integer divided by `1000`. -/
def roundMil (num : ℤ) (exp : ℕ) : ℤ :=
  roundHalfEvenDiv (num * 1000) exp

/-- Nat value of a digit run. -/
def digitsVal (l : List Char) : ℕ :=
  l.foldl (fun acc c => 10 * acc + (c.toNat - '0'.toNat)) 0

/-- Parse the digit/dot body of a decimal literal: all characters must
be digits or a single dot, and at least one digit must occur.  Returns
the mantissa and decimal exponent: the value is `mant / 10^exp`. -/
def parseDecBody (l : List Char) : Option (ℤ × ℕ) :=
  let parts := splitOnChar '.' l
  match parts with
  | [intPart] =>
    if intPart ≠ [] ∧ intPart.all Char.isDigit then
      some ((digitsVal intPart : ℤ), 0)
    else none
  | [intPart, fracPart] =>
    if (intPart ≠ [] ∨ fracPart ≠ []) ∧ intPart.all Char.isDigit ∧
        fracPart.all Char.isDigit then
      some ((digitsVal (intPart ++ fracPart) : ℤ), fracPart.length)
    else none
  | _ => none

/-- Model of Python `float(s)` on the character set the matchers can
capture (`[0-9 . , $ -]` after comma/dollar stripping: an optional
sign followed by digits with at most one decimal point; `float` fails
on an empty digit body, several dots, or a stray sign).  Returns the
value as a decimal mantissa/exponent pair. -/
def pyFloatDec? (l : List Char) : Option (ℤ × ℕ) :=
  match l with
  | '-' :: rest => (parseDecBody rest).map (fun p => (-p.1, p.2))
  | '+' :: rest => parseDecBody rest
  | _ => parseDecBody l

/-! ### The Numeric/Unit Normalizer (`normalize_number`, source lines 61–76) -/

/-- The Numeric/Unit Normalizer.  Translation of `normalize_number`:
strip commas and dollar signs, parse as a float (exception → `None`),
then scale according to the unit token and round to 3 decimal places.
The resulting rational is exactly the Python float result for all
inputs whose value and scaled value are exactly representable. -/
def normalize_number (num_str : String) (unit : Option String) : Option ℚ :=
  match pyFloatDec? (removeChars [',', '$'] num_str.data) with
  | none => none
  | some (m, e) =>
    let u := String.mk (trimWsL (lowerL (unit.getD "").data))
    if u ∈ ["billion", "bn", "b"] then
      some (mkRat (roundMil (m * 1000) e) 1000)
    else if u ∈ ["million", "mn", "mm", "m"] then
      some (mkRat (roundMil m e) 1000)
    else if u ∈ ["thousand", "k"] then
      some (mkRat (roundMil m (e + 3)) 1000)
    else if m ≥ 1000000 * (10 : ℤ) ^ e then
      some (mkRat (roundMil m (e + 6)) 1000)
    else
      some (mkRat (roundMil m e) 1000)

/-! ### A backtracking matcher for the source's regular expressions

Mirrors Python `re` semantics for the constructs the source uses:
leftmost match, left-to-right alternation preference, greedy and lazy
quantifiers, capture groups (last capture wins, unmatched group
`None`), and `\b` word boundaries. -/

/-- Syntax of the embedded regular expressions. -/
inductive RE where
  | eps
  | cls (p : Char → Bool)
  | seq (a b : RE)
  | alt (a b : RE)
  | rstar (greedy : Bool) (a : RE)
  | grp (idx : ℕ) (a : RE)
  | wordB

/-- Captured groups: group index ↦ captured characters (most recent
capture first). -/
abbrev Caps := List (ℕ × List Char)

/-- Result of a match attempt: the character before the current
position, the remaining input, and the captures. -/
abbrev MRes := Option (Option Char × List Char × Caps)

/-- The backtracking matcher.  `prev` is the character just before the
current position (for `\b`), `rest` the remaining input, `k` the
continuation.  Fuel bounds the recursion depth; every call site
supplies enough fuel that the bound is never the reason a match
fails. -/
def runRe : ℕ → RE → Option Char → List Char → Caps →
    (Option Char → List Char → Caps → MRes) → MRes
  | 0, _, _, _, _, _ => none
  | Nat.succ fuel, re, prev, rest, caps, k =>
    match re with
    | .eps => k prev rest caps
    | .cls p =>
      match rest with
      | [] => none
      | c :: cs => if p c then k (some c) cs caps else none
    | .seq a b =>
      runRe fuel a prev rest caps (fun p' r' c' => runRe fuel b p' r' c' k)
    | .alt a b =>
      match runRe fuel a prev rest caps k with
      | some res => some res
      | none => runRe fuel b prev rest caps k
    | .rstar g a =>
      let more := runRe fuel a prev rest caps
        (fun p' r' c' =>
          if r'.length = rest.length then none
          else runRe fuel (.rstar g a) p' r' c' k)
      if g then
        match more with
        | some res => some res
        | none => k prev rest caps
      else
        match k prev rest caps with
        | some res => some res
        | none => more
    | .grp i a =>
      runRe fuel a prev rest caps
        (fun p' r' c' =>
          k p' r' ((i, rest.take (rest.length - r'.length)) :: c'))
    | .wordB =>
      let before := match prev with | some c => isPyWord c | none => false
      let after := match rest with | c :: _ => isPyWord c | [] => false
      if before != after then k prev rest caps else none

/-- Attempt a match anchored at the current position. -/
def matchHere (re : RE) (prev : Option Char) (rest : List Char) : MRes :=
  runRe (8 * rest.length + 1200) re prev rest [] (fun p r c => some (p, r, c))

/-- Python `re.search`: try each start position from left to right.
Returns the captures, the input length at the match start, and the
state after the match (for `findall`). -/
def searchAux (re : RE) : Option Char → List Char → Option (Caps × ℕ × Option Char × List Char)
  | prev, rest =>
    match matchHere re prev rest with
    | some (p, r, caps) => some (caps, rest.length, p, r)
    | none =>
      match rest with
      | [] => none
      | c :: cs => searchAux re (some c) cs

/-- Python `re.search`, returning just the captures of the leftmost
match. -/
def reSearch (re : RE) (l : List Char) : Option Caps :=
  (searchAux re none l).map (fun x => x.1)

/-- Python `re.findall`: all non-overlapping matches left to right
(continuing after each match, advancing one position after an empty
match). -/
def findAllAux (re : RE) : ℕ → Option Char → List Char → List Caps
  | 0, _, _ => []
  | Nat.succ fuel, prev, rest =>
    match searchAux re prev rest with
    | none => []
    | some (caps, startLen, p, r) =>
      if r.length = startLen then
        match r with
        | [] => [caps]
        | c :: cs => caps :: findAllAux re fuel (some c) cs
      else caps :: findAllAux re fuel p r

/-- Python `re.findall`. -/
def reFindAll (re : RE) (l : List Char) : List Caps :=
  findAllAux re (l.length + 1) none l

/-- `m.group(i)`: `None` when the group did not participate in the
match. -/
def capGet (caps : Caps) (i : ℕ) : Option String :=
  (caps.lookup i).map (fun x => String.mk x)

/-- `m.group(i)` defaulted to the empty string (the convention of
`re.findall` tuples). -/
def capD (caps : Caps) (i : ℕ) : String :=
  String.mk ((caps.lookup i).getD [])

/-! #### Pattern combinators -/

/-- Literal character. -/
def rchar (c : Char) : RE := .cls (fun d => d == c)

/-- Literal string. -/
def rlit (s : String) : RE := (s.data.map rchar).foldr RE.seq .eps

/-- Sequence of patterns. -/
def rseq (l : List RE) : RE := l.foldr RE.seq .eps

/-- Ordered alternation (Python tries alternatives left to right). -/
def ralt : List RE → RE
  | [] => .cls (fun _ => false)
  | [r] => r
  | r :: rs => .alt r (ralt rs)

/-- `r?` (greedy) or `r??` (lazy). -/
def ropt (g : Bool) (r : RE) : RE := if g then .alt r .eps else .alt .eps r

/-- `r+` (greedy). -/
def rplus (r : RE) : RE := .seq r (.rstar true r)

/-- `r{n}`. -/
def repN : ℕ → RE → RE
  | 0, _ => .eps
  | Nat.succ n, r => .seq r (repN n r)

/-- `r{0,n}` (greedy when `g`, else lazy). -/
def repUpTo (g : Bool) : ℕ → RE → RE
  | 0, _ => .eps
  | Nat.succ n, r =>
    if g then .alt (.seq r (repUpTo g n r)) .eps
    else .alt .eps (.seq r (repUpTo g n r))

/-- `\s*`. -/
def wsStar : RE := .rstar true (.cls isPyWs)

/-- `\s+`. -/
def wsPlus : RE := rplus (.cls isPyWs)

/-- `(?:\s+\w+)`: one intervening word. -/
def gapWord : RE := .seq wsPlus (rplus (.cls isPyWord))

/-- `(?:approximately|about|around|nearly|over|~)`. -/
def qualRe : RE := ralt (["approximately", "about", "around", "nearly", "over", "~"].map rlit)

/-- `([\d,]+(?:\.\d+)?)` as capture group `i`. -/
def numCommaGrp (i : ℕ) : RE :=
  .grp i (.seq (rplus (.cls (fun c => c.isDigit || c == ',')))
    (ropt true (.seq (rchar '.') (rplus (.cls Char.isDigit)))))

/-! ### The Spoken-Number Decoder (`spoken_to_number`, source lines 24–58) -/

/-- The spoken-number word table (`NUM_WORDS`, source lines 24–32). -/
def NUM_WORDS : List (String × ℕ) :=
  [("zero", 0), ("one", 1), ("two", 2), ("three", 3), ("four", 4), ("five", 5),
   ("six", 6), ("seven", 7), ("eight", 8), ("nine", 9), ("ten", 10),
   ("eleven", 11), ("twelve", 12), ("thirteen", 13), ("fourteen", 14),
   ("fifteen", 15), ("sixteen", 16), ("seventeen", 17), ("eighteen", 18),
   ("nineteen", 19), ("twenty", 20), ("thirty", 30), ("forty", 40),
   ("fifty", 50), ("sixty", 60), ("seventy", 70), ("eighty", 80),
   ("ninety", 90), ("hundred", 100)]

/-- Decimal digit string of a number below 100 (Python `str(n)` for the
table values actually used). -/
def natDigitStr (n : ℕ) : List Char :=
  if n < 10 then [Nat.digitChar n]
  else [Nat.digitChar (n / 10), Nat.digitChar (n % 10)]

/-- The digit string contributed by one token of the spoken-number
loop, or `none` for an unrecognized token (which stops the loop):
a number word below one hundred, the filler "oh"/"o" (digit 0), or a
literal digit run (`^\d+$`). -/
def spokenTokDigits (tok : List Char) : Option (List Char) :=
  match NUM_WORDS.lookup (String.mk tok) with
  | some n => if n < 100 then some (natDigitStr n) else none
  | none =>
    if tok = ['o', 'h'] ∨ tok = ['o'] then some ['0']
    else if tok ≠ [] ∧ tok.all Char.isDigit then some tok
    else none

/-- The consuming loop of `spoken_to_number`: recognized digit pieces
up to the first unrecognized token. -/
def spokenConsume : List (List Char) → List (List Char)
  | [] => []
  | tok :: rest =>
    match spokenTokDigits tok with
    | some d => d :: spokenConsume rest
    | none => []

/-- The Spoken-Number Decoder (`spoken_to_number`, source lines 34–58):
lower-case, split on whitespace, consume recognized tokens, concatenate
their digits, and read the result as an integer; `none` when no token
was consumed. -/
def spoken_to_number (text : String) : Option ℕ :=
  let digits := spokenConsume (splitWs (lowerL text.data))
  if digits = [] then none
  else some (digitsVal digits.flatten)

/-! ### Metric matcher patterns (verbatim translations of the source
regexes; all are compiled with `re.IGNORECASE` and are matched against
the lower-cased text) -/

/-- `\bnet\s+(income|earnings|profit|loss)\b(?:\s+\w+){0,6}?\s*`
`(?:was|were|of|at|totaled|amounted to|came in at|reported at|came to|reached)?\s*`
`(?:approximately|about|around|nearly|over|~)?\s*\$?\s*([\d,]+(?:\.\d+)?)\s*`
`(billion|million|thousand|bn|mn|mm|m|b|k)?` (source lines 154–162). -/
def net_income_pat : RE :=
  rseq [.wordB, rlit "net", wsPlus,
    .grp 1 (ralt (["income", "earnings", "profit", "loss"].map rlit)), .wordB,
    repUpTo false 6 gapWord, wsStar,
    ropt true (ralt (["was", "were", "of", "at", "totaled", "amounted to",
      "came in at", "reported at", "came to", "reached"].map rlit)),
    wsStar, ropt true qualRe, wsStar,
    ropt true (rchar '$'), wsStar,
    numCommaGrp 2, wsStar,
    ropt true (.grp 3 (ralt (["billion", "million", "thousand", "bn", "mn",
      "mm", "m", "b", "k"].map rlit)))]

/-- One sentence step of `parse_net_income` (source lines 164–171):
apply the pattern to the sentence; on a match return the captured head
noun (group 1) and `normalize_number(group(2).replace(",",""), group(3))`. -/
def netIncomeSentValue (s : String) : Option (String × Option ℚ) :=
  match reSearch net_income_pat (lowerL s.data) with
  | none => none
  | some caps =>
    some ((capGet caps 1).getD "",
      normalize_number (String.mk (removeChars [','] ((caps.lookup 2).getD [])))
        (capGet caps 3))

/-- The sentence loop of `parse_net_income`: the first sentence whose
text matches the pattern decides the result (the value, negated when the
head noun is "loss"); a sentence that matches with an unparsable number
makes the whole matcher return `none`. -/
def parse_net_income_loop : List String → Option ℚ
  | [] => none
  | s :: rest =>
    match netIncomeSentValue s with
    | none => parse_net_income_loop rest
    | some (head, vOpt) => vOpt.map (fun v => if head = "loss" then -v else v)

/-- `parse_net_income` (source lines 142–173), the spaCy sentence
splitter passed as `sents`.  Sentences containing "adjusted net income"
are skipped before matching. -/
def parse_net_income (sents : String → List String) (text : String) : Option ℚ :=
  let t := clean_text text
  parse_net_income_loop
    ((sents t).filter
      (fun s => !(listContainsSub (lowerL s.data) "adjusted net income".data)))

/-- `\b(revenue)\b(?:\s+\w+){0,5}?`
`(?:was|were|of|at|totaled|amounted to|came in at|reported at|reached)?\s*`
`(?:approximately|about|around|nearly|over|~)?\s*\$?\s*([\d,]+(?:\.\d+)?)\s*`
`(billion|million|thousand|k|bn|mn|mm|m|b)?` (source lines 109–116). -/
def revenue_pat : RE :=
  rseq [.wordB, .grp 1 (rlit "revenue"), .wordB,
    repUpTo false 5 gapWord,
    ropt true (ralt (["was", "were", "of", "at", "totaled", "amounted to",
      "came in at", "reported at", "reached"].map rlit)),
    wsStar, ropt true qualRe, wsStar,
    ropt true (rchar '$'), wsStar,
    numCommaGrp 2, wsStar,
    ropt true (.grp 3 (ralt (["billion", "million", "thousand", "k", "bn",
      "mn", "mm", "m", "b"].map rlit)))]

/-- `\$([\d,]{7,})(?:\.\d+)?` (source lines 125–127). -/
def revenue_fallback_pat : RE :=
  rseq [rchar '$',
    .grp 1 (.seq (repN 7 (.cls (fun c => c.isDigit || c == ',')))
      (.rstar true (.cls (fun c => c.isDigit || c == ',')))),
    ropt true (.seq (rchar '.') (rplus (.cls Char.isDigit)))]

/-- The candidate loop of `parse_revenue` (source lines 118–122): the
first `findall` candidate whose number normalizes decides the result. -/
def parse_revenue_loop : List Caps → Option ℚ
  | [] => none
  | caps :: rest =>
    match normalize_number (capD caps 2) (some (capD caps 3)) with
    | some v => some v
    | none => parse_revenue_loop rest

/-- `parse_revenue` (source lines 97–133): the near-keyword pattern over
all its occurrences first, then — only if no candidate normalized — the
large dollar-literal fallback, accepted only when "revenue" occurs
anywhere in the text. -/
def parse_revenue (text : String) : Option ℚ :=
  let t := clean_text text
  match parse_revenue_loop (reFindAll revenue_pat (lowerL t.data)) with
  | some v => some v
  | none =>
    if listContainsSub (lowerL t.data) "revenue".data then
      match reSearch revenue_fallback_pat t.data with
      | some caps => normalize_number (capD caps 1) none
      | none => none
    else none

/-- `actual\s+eps[:\s]*\$?\s*(-?[\d,.]+)` (source line 366). -/
def actual_eps_pat : RE :=
  rseq [rlit "actual", wsPlus, rlit "eps",
    .rstar true (.cls (fun c => c == ':' || isPyWs c)),
    ropt true (rchar '$'), wsStar,
    .grp 1 (.seq (ropt true (rchar '-'))
      (rplus (.cls (fun c => c.isDigit || c == ',' || c == '.'))))]

/-- `actual\s+eps\s+(?:of|was|were|at|totaled)?\s*([a-z\s]+)\s*(cents?|dollars?)`
(source line 379). -/
def spoken_eps_pat : RE :=
  rseq [rlit "actual", wsPlus, rlit "eps", wsPlus,
    ropt true (ralt (["of", "was", "were", "at", "totaled"].map rlit)),
    wsStar,
    .grp 1 (rplus (.cls (fun c => ('a' ≤ c && c ≤ 'z') || isPyWs c))),
    wsStar,
    .grp 2 (ralt [.seq (rlit "cent") (ropt true (rchar 's')),
      .seq (rlit "dollar") (ropt true (rchar 's'))])]

/-- `\b(loss|negative|deficit)\b` (source lines 372 and 387), applied
to the lower-cased text. -/
def loss_marker_pat : RE :=
  rseq [.wordB, .grp 1 (ralt (["loss", "negative", "deficit"].map rlit)), .wordB]

/-- Is there an explicit loss/negative/deficit word in the (lower-cased)
text? -/
def hasLossMarker (l : List Char) : Bool := (reSearch loss_marker_pat l).isSome

/-- `parse_actual_eps` (source lines 354–391): the digit-literal pattern
first (absolute value taken, sign reconstructed from the loss marker
searched over the whole normalized text); otherwise the spoken-number
pattern (divided by 100 for cents, same loss-marker sign rule). -/
def parse_actual_eps (text : String) : Option ℚ :=
  let t := clean_text text
  let lt := lowerL t.data
  match reSearch actual_eps_pat lt with
  | some caps =>
    (match pyFloatDec? (removeChars [','] ((caps.lookup 1).getD [])) with
     | some (m, e) =>
       let a : ℤ := (m.natAbs : ℤ)
       let a := if hasLossMarker lt then -a else a
       some (mkRat (roundMil a e) 1000)
     | none => none)
  | none =>
    match reSearch spoken_eps_pat lt with
    | some caps =>
      (match spoken_to_number (String.mk ((caps.lookup 1).getD [])) with
       | some n =>
         let inCents := listContainsSub (lowerL ((caps.lookup 2).getD [])) "cent".data
         let e : ℕ := if inCents then 2 else 0
         let m : ℤ := if hasLossMarker lt then -(n : ℤ) else (n : ℤ)
         some (mkRat (roundMil m e) 1000)
       | none => none)
    | none => none

/-- `([\d]{1,3}(?:,\d{3})+|\d+(?:\.\d+)?)` as group `i`
(the number alternation of `parse_adjusted_net_income`). -/
def adjNumGrp (i : ℕ) : RE :=
  .grp i (.alt
    (.seq (.seq (.cls Char.isDigit) (repUpTo true 2 (.cls Char.isDigit)))
      (rplus (.seq (rchar ',') (repN 3 (.cls Char.isDigit)))))
    (.seq (rplus (.cls Char.isDigit))
      (ropt true (.seq (rchar '.') (rplus (.cls Char.isDigit))))))

/-- The unit alternation of `parse_adjusted_net_income`. -/
def adj_units : List String :=
  ["billion", "million", "thousand", "bn", "mn", "mm", "m", "b", "k"]

/-- `\$?\s*(NUM)\s*(UNIT)?(?:\s+\w+){0,3}?\s+adjusted\s+net\s+income\b`
(source lines 552–557). -/
def adj_before_pat : RE :=
  rseq [ropt true (rchar '$'), wsStar, adjNumGrp 1, wsStar,
    ropt true (.grp 2 (ralt (adj_units.map rlit))),
    repUpTo false 3 gapWord, wsPlus,
    rlit "adjusted", wsPlus, rlit "net", wsPlus, rlit "income", .wordB]

/-- `\badjusted\s+net\s+income(?:\s+\w+){0,3}?\s*`
`(?:was|were|is|of|at|totaled|amounted to|came in at|reported at|reached|came to)?\s*`
`(?:approximately|about|around|nearly|over|~)?\s*\$?\s*(NUM)\s*(UNIT)\b`
with the unit required (source lines 563–570). -/
def adj_after_pat : RE :=
  rseq [.wordB, rlit "adjusted", wsPlus, rlit "net", wsPlus, rlit "income",
    repUpTo false 3 gapWord, wsStar,
    ropt true (ralt (["was", "were", "is", "of", "at", "totaled",
      "amounted to", "came in at", "reported at", "reached", "came to"].map rlit)),
    wsStar, ropt true qualRe, wsStar, ropt true (rchar '$'), wsStar,
    adjNumGrp 1, wsStar, .grp 2 (ralt (adj_units.map rlit)), .wordB]

/-- `parse_adjusted_net_income` (source lines 541–575): number-before
pattern first; if it matched, its (possibly failed) normalization is the
result; otherwise the number-after pattern with a required unit. -/
def parse_adjusted_net_income (text : String) : Option ℚ :=
  let t := clean_text text
  let lt := lowerL t.data
  match reSearch adj_before_pat lt with
  | some caps => normalize_number (capD caps 1) (capGet caps 2)
  | none =>
    match reSearch adj_after_pat lt with
    | some caps => normalize_number (capD caps 1) (capGet caps 2)
    | none => none

/-! ### The Document Identifier (source lines 812–854) -/

/-- `\(([A-Z]+):([A-Z]+)\)` (source line 814, case sensitive). -/
def ticker_pat : RE :=
  rseq [rchar '(', .grp 1 (rplus (.cls (fun c => 'A' ≤ c && c ≤ 'Z'))),
    rchar ':', .grp 2 (rplus (.cls (fun c => 'A' ≤ c && c ≤ 'Z'))), rchar ')']

/-- `\b(Q[1-4])\s+(\d{4})\b` (source line 815). -/
def quarter_year_pat : RE :=
  rseq [.wordB, .grp 1 (.seq (rchar 'Q') (.cls (fun c => '1' ≤ c && c ≤ '4'))),
    wsPlus, .grp 2 (repN 4 (.cls Char.isDigit)), .wordB]

/-- The month alternation of the date pattern (source lines 816–819). -/
def month_names : List String :=
  ["January", "February", "March", "April", "May", "June", "July", "August",
   "September", "October", "November", "December"]

/-- `(January|…|December)\s+\d{1,2},\s+\d{4}`; the whole match is used
(`group(0)`), so the pattern is wrapped in group 0. -/
def date_pat : RE :=
  .grp 0 (rseq [.grp 1 (ralt (month_names.map rlit)), wsPlus,
    .seq (.cls Char.isDigit) (ropt true (.cls Char.isDigit)),
    rchar ',', wsPlus, repN 4 (.cls Char.isDigit)])

/-- `extract_ticker_quarter_year_date` (source lines 812–824): inspect
only the first three lines. -/
def extract_ticker_quarter_year_date (text : String) :
    Option String × Option String × Option String × Option String :=
  let first_lines := joinWithChar '\n' ((splitOnChar '\n' text.data).take 3)
  let ticker := (reSearch ticker_pat first_lines).bind (fun c => capGet c 2)
  let qy := reSearch quarter_year_pat first_lines
  let quarter := qy.bind (fun c => capGet c 1)
  let year := qy.bind (fun c => capGet c 2)
  let date := (reSearch date_pat first_lines).bind (fun c => capGet c 0)
  (ticker, quarter, year, date)

/-- Index of the last occurrence of a character. -/
def lastIdxOf (c : Char) (l : List Char) : Option ℕ :=
  ((l.enum.filter (fun p => p.2 == c)).getLast?).map (fun p => p.1)

/-- `Path(file_name).stem`: the final path component without its last
suffix (a leading or trailing dot does not begin a suffix). -/
def pathStem (fileName : String) : List Char :=
  let base := ((splitOnChar '/' fileName.data).getLast?).getD []
  match lastIdxOf '.' base with
  | some i => if 0 < i ∧ i + 1 < base.length then base.take i else base
  | none => base

/-- `re.match(r"\d{4}", s)`: at least four characters, the first four
digits. -/
def leading4Digits (l : List Char) : Bool :=
  4 ≤ l.length && (l.take 4).all Char.isDigit

/-- `extract_from_filename` (source lines 826–838): split the stem on
underscores into positional fields; year and date only when there are
at least four parts and the last starts with four digits. -/
def extract_from_filename (file_name : String) :
    Option String × Option String × Option String × Option String :=
  let parts := splitOnChar '_' (pathStem file_name)
  let ticker := match parts with
    | p :: _ => some (String.mk (upperL p))
    | [] => none
  let quarter := (parts.get? 1).map String.mk
  if 4 ≤ parts.length ∧ leading4Digits ((parts.getLast?).getD []) then
    let year := (parts.getLast?).getD []
    let month_day := joinWithChar ' ' ((parts.drop 2).dropLast)
    (ticker, quarter, some (String.mk year),
      some (String.mk (month_day ++ ' ' :: year)))
  else
    (ticker, quarter, none, none)

/-! ### The Extraction Orchestrator (source lines 19–21 and 764–809) -/

/-- A value in the output mapping of `extract_metrics`: a metric number
or a narrative sentence list. -/
inductive MetricOut where
  | num (q : ℚ)
  | sents (l : List String)
deriving DecidableEq

/-- The matcher registry: one function per metric concept and one per
narrative category, exactly the functions `extract_metrics` calls.
Only the matchers the claims examine are embedded concretely above; the
registry abstracts over all of them so that the orchestrator-level
statements hold for every matcher behaviour. -/
structure Parsers where
  parse_revenue : String → Option ℚ
  parse_consolidated_net_sales : String → Option ℚ
  parse_consolidated_operating_income : String → Option ℚ
  parse_orders : String → Option ℚ
  parse_total_orders : String → Option ℚ
  parse_marketplace_gov : String → Option ℚ
  parse_adjusted_ebitda : String → Option ℚ
  parse_lumber_segment_adjusted_ebitda : String → Option ℚ
  parse_available_liquidity : String → Option ℚ
  parse_liquidity : String → Option ℚ
  parse_net_cash_balance : String → Option ℚ
  parse_credit_facility : String → Option ℚ
  parse_cash_flow : String → Option ℚ
  parse_net_revenue_margin : String → Option ℚ
  parse_gaap_net_income : String → Option ℚ
  parse_net_income : String → Option ℚ
  parse_gaap_diluted_eps : String → Option ℚ
  parse_adjusted_eps : String → Option ℚ
  parse_actual_eps : String → Option ℚ
  parse_share_buybacks_and_dividends : String → Option ℚ
  parse_combined_rate_ar6 : String → Option ℚ
  parse_total_net_sales : String → Option ℚ
  parse_free_cash_flow : String → Option ℚ
  parse_interest_expense : String → Option ℚ
  parse_adjusted_net_income : String → Option ℚ
  parse_gaap_operating_income : String → Option ℚ
  parse_total_available_liquidity : String → Option ℚ
  extract_guidance_sentences : String → List String
  extract_forward_looking_statements : String → List String
  extract_prior_year_comparisons : String → List String
  extract_year_over_year_sentences : String → List String
  extract_compared_to_sentences : String → List String
  extract_raising_sentences : String → List String
  extract_refinance_sentences : String → List String
  extract_production_sentences : String → List String
  extract_outlook_sentences : String → List String
  extract_demand_sentences : String → List String
  extract_challenge_sentences : String → List String

/-- `remove_null_metrics` (source lines 19–21): drop every key whose
value is `None`. -/
def remove_null_metrics (l : List (String × Option ℚ)) : List (String × ℚ) :=
  l.filterMap (fun kv => kv.2.map (fun v => (kv.1, v)))

/-- The metric assignments of `extract_metrics` (source lines 766–792),
key and matcher in source order. -/
def metricFns (P : Parsers) : List (String × (String → Option ℚ)) :=
  [("revenue", P.parse_revenue),
   ("consolidated_net_sales", P.parse_consolidated_net_sales),
   ("consolidated_operating_income", P.parse_consolidated_operating_income),
   ("orders", P.parse_orders),
   ("total_orders", P.parse_total_orders),
   ("marketplace_gov", P.parse_marketplace_gov),
   ("adjusted_ebitda", P.parse_adjusted_ebitda),
   ("lumber_segment_adjusted_ebitda", P.parse_lumber_segment_adjusted_ebitda),
   ("available_liquidity", P.parse_available_liquidity),
   ("liquidity", P.parse_liquidity),
   ("net_cash_balance", P.parse_net_cash_balance),
   ("credit_facility", P.parse_credit_facility),
   ("cash_flow", P.parse_cash_flow),
   ("net_revenue_margin", P.parse_net_revenue_margin),
   ("gaap_net_income", P.parse_gaap_net_income),
   ("net_income", P.parse_net_income),
   ("gaap_diluted_eps", P.parse_gaap_diluted_eps),
   ("adjusted_eps", P.parse_adjusted_eps),
   ("actual_eps", P.parse_actual_eps),
   ("share_buybacks_and_dividends", P.parse_share_buybacks_and_dividends),
   ("combined_rate_ar6", P.parse_combined_rate_ar6),
   ("total_net_sales", P.parse_total_net_sales),
   ("free_cash_flow", P.parse_free_cash_flow),
   ("interest_expense", P.parse_interest_expense),
   ("adjusted_net_income", P.parse_adjusted_net_income),
   ("gaap_operating_income", P.parse_gaap_operating_income),
   ("total_available_liquidity", P.parse_total_available_liquidity)]

/-- The narrative-category assignments of `extract_metrics` (source
lines 797–807), key and classifier in source order. -/
def narrativeFns (P : Parsers) : List (String × (String → List String)) :=
  [("guidance", P.extract_guidance_sentences),
   ("forward_look", P.extract_forward_looking_statements),
   ("prior_year_mentions", P.extract_prior_year_comparisons),
   ("year_over_year_mentions", P.extract_year_over_year_sentences),
   ("compared_to_mentions", P.extract_compared_to_sentences),
   ("raising_mentions", P.extract_raising_sentences),
   ("refinance_mentions", P.extract_refinance_sentences),
   ("production", P.extract_production_sentences),
   ("outlook", P.extract_outlook_sentences),
   ("demand_mentions", P.extract_demand_sentences),
   ("challenge_mentions", P.extract_challenge_sentences)]

/-- The eleven narrative category keys. -/
def narrativeKeys : List String :=
  ["guidance", "forward_look", "prior_year_mentions",
   "year_over_year_mentions", "compared_to_mentions", "raising_mentions",
   "refinance_mentions", "production", "outlook", "demand_mentions",
   "challenge_mentions"]

/-- `extract_metrics` (source lines 764–809): run every matcher, drop
the null results, then append every narrative category (always present,
possibly empty).  The Python insertion-ordered dict is modelled as an
association list with (distinct) string keys. -/
def extract_metrics (P : Parsers) (text : String) : List (String × MetricOut) :=
  (remove_null_metrics ((metricFns P).map (fun kf => (kf.1, kf.2 text)))).map
      (fun kv => (kv.1, MetricOut.num kv.2))
    ++ (narrativeFns P).map (fun kf => (kf.1, MetricOut.sents (kf.2 text)))

/-- Python truthiness of an optional string: `not x` holds for `None`
and for the empty string. -/
def truthyStr (o : Option String) : Bool :=
  match o with
  | none => false
  | some s => !(s == "")

/-- The output record of `parse_transcript_file`. -/
structure TranscriptRecord where
  ticker : Option String
  quarter : Option String
  year : Option String
  earnings_date : Option String
  file_name : String
  metrics : List (String × MetricOut)

/-- `parse_transcript_file` (source lines 840–854) with the file read
factored out: header extraction first; if any of the four fields is
falsy, all four are re-derived from the filename; a record is produced
regardless. -/
def parse_transcript_file (P : Parsers) (file_name text : String) :
    TranscriptRecord :=
  let h := extract_ticker_quarter_year_date text
  let f :=
    if !truthyStr h.1 || !truthyStr h.2.1 || !truthyStr h.2.2.1 ||
        !truthyStr h.2.2.2 then
      extract_from_filename file_name
    else h
  { ticker := f.1, quarter := f.2.1, year := f.2.2.1,
    earnings_date := f.2.2.2, file_name := file_name,
    metrics := extract_metrics P text }

/-- A sentence splitter for one-sentence documents: spaCy returns the
whole text as the single sentence. -/
def singleSent : String → List String := fun t => [t]

/-! ### Properties of the Text Normalizer -/

/-- No two adjacent whitespace characters. -/
def NoWsRun (l : List Char) : Prop :=
  List.Chain' (fun a b => ¬(isPyWs a = true ∧ isPyWs b = true)) l

/-- The head, if any, is not whitespace. -/
def HeadNotWs (l : List Char) : Prop :=
  ∀ c, l.head? = some c → isPyWs c = false

theorem collapse_ws_space : ∀ (b : Bool) (l : List Char) (c : Char),
    c ∈ collapseWsAux b l → isPyWs c = true → c = ' ' := by
  intro b l
  induction l generalizing b with
  | nil => intro c h; simp [collapseWsAux] at h
  | cons x xs ih =>
    intro c h hws
    by_cases hx : isPyWs x
    · cases b with
      | true =>
        simp only [collapseWsAux, hx, if_true] at h
        exact ih true c h hws
      | false =>
        simp only [collapseWsAux, hx, if_true] at h
        rcases List.mem_cons.mp h with h1 | h1
        · exact h1
        · exact ih true c h1 hws
    · simp only [collapseWsAux, hx, if_false] at h
      rcases List.mem_cons.mp h with h1 | h1
      · rw [h1] at hws; exact absurd hws (by simpa using hx)
      · exact ih false c h1 hws

theorem collapse_true_head : ∀ l : List Char, HeadNotWs (collapseWsAux true l) := by
  intro l
  induction l with
  | nil => intro c h; simp [collapseWsAux] at h
  | cons x xs ih =>
    by_cases hx : isPyWs x
    · simpa only [collapseWsAux, hx, if_true] using ih
    · intro c h
      simp only [collapseWsAux, hx, if_false, List.head?_cons] at h
      cases h; simpa using hx

theorem collapse_chain : ∀ (b : Bool) (l : List Char), NoWsRun (collapseWsAux b l) := by
  intro b l
  induction l generalizing b with
  | nil => cases b <;> exact List.chain'_nil
  | cons x xs ih =>
    by_cases hx : isPyWs x
    · cases b with
      | true => simpa only [collapseWsAux, hx, if_true] using ih true
      | false =>
        simp only [collapseWsAux, hx, if_true]
        refine List.chain'_cons'.mpr ⟨?_, ih true⟩
        intro y hy
        have := collapse_true_head xs y hy
        simp [this]
    · simp only [collapseWsAux, hx, if_false]
      refine List.chain'_cons'.mpr ⟨?_, ih false⟩
      intro y _
      simp [hx]

theorem collapse_true_eq_false (l : List Char) (h : HeadNotWs l) :
    collapseWsAux true l = collapseWsAux false l := by
  cases l with
  | nil => rfl
  | cons x xs =>
    have hx := h x (by simp)
    simp [collapseWsAux, hx]

theorem collapse_id : ∀ l : List Char, NoWsRun l →
    (∀ c ∈ l, isPyWs c = true → c = ' ') → collapseWsAux false l = l := by
  intro l
  induction l with
  | nil => intro _ _; rfl
  | cons x xs ih =>
    intro hch hsp
    have hxs : NoWsRun xs := hch.tail
    have hsp' : ∀ c ∈ xs, isPyWs c = true → c = ' ' :=
      fun c hc => hsp c (List.mem_cons_of_mem x hc)
    by_cases hx : isPyWs x
    · have hx' : x = ' ' := hsp x (by simp) hx
      have hhead : HeadNotWs xs := by
        intro y hy
        have := (List.chain'_cons'.mp hch).1 y hy
        by_contra hcon
        exact this ⟨hx, by simpa using hcon⟩
      simp only [collapseWsAux, hx, if_true]
      rw [collapse_true_eq_false xs hhead, ih hxs hsp', hx']
      simp
    · simp only [collapseWsAux, hx, if_false, ih hxs hsp']
      simp

theorem dropWhile_head_not (l : List Char) : HeadNotWs (l.dropWhile isPyWs) := by
  induction l with
  | nil => intro c h; simp at h
  | cons x xs ih =>
    by_cases hx : isPyWs x
    · simpa [List.dropWhile_cons, hx] using ih
    · intro c h
      simp only [List.dropWhile_cons, hx] at h
      simp only [if_neg, Bool.false_eq_true, not_false_iff, List.head?_cons] at h
      cases h; simpa using hx

theorem dropWhile_eq_self_of_head (l : List Char) (h : HeadNotWs l) :
    l.dropWhile isPyWs = l := by
  cases l with
  | nil => rfl
  | cons x xs =>
    have hx := h x (by simp)
    simp [List.dropWhile_cons, hx]

theorem mem_of_mem_dropWhile {c : Char} {l : List Char}
    (h : c ∈ l.dropWhile isPyWs) : c ∈ l :=
  (List.dropWhile_sublist isPyWs (l := l)).mem h

theorem noWsRun_dropWhile (l : List Char) (h : NoWsRun l) :
    NoWsRun (l.dropWhile isPyWs) := by
  induction l with
  | nil => exact h
  | cons x xs ih =>
    by_cases hx : isPyWs x
    · simpa [List.dropWhile_cons, hx] using ih h.tail
    · simpa [List.dropWhile_cons, hx] using h

theorem noWsRun_reverse (l : List Char) (h : NoWsRun l) : NoWsRun l.reverse := by
  rw [NoWsRun, List.chain'_reverse]
  exact h.imp (fun a b hab => by rw [flip]; tauto)

/-- The right trim is a prefix of the input. -/
theorem trimRightIsPre (m : List Char) :
    (m.reverse.dropWhile isPyWs).reverse <+: m := by
  have h1 : m.reverse.dropWhile isPyWs <:+ m.reverse := List.dropWhile_suffix isPyWs
  exact List.reverse_suffix.mp (by simpa using h1)

theorem trimWsL_head (l : List Char) : HeadNotWs (trimWsL l) := by
  intro c hc
  have hm : HeadNotWs (l.dropWhile isPyWs) := dropWhile_head_not l
  obtain ⟨t, ht⟩ := trimRightIsPre (l.dropWhile isPyWs)
  rw [trimWsL] at hc
  cases htl : (List.dropWhile isPyWs (List.dropWhile isPyWs l).reverse).reverse with
  | nil => rw [htl] at hc; simp at hc
  | cons x rest =>
    rw [htl] at hc ht
    simp only [List.head?_cons, Option.some.injEq] at hc
    rw [← hc]
    exact hm x (by rw [← ht]; simp)

theorem trimWsL_last (l : List Char) : HeadNotWs (trimWsL l).reverse := by
  rw [trimWsL, List.reverse_reverse]
  exact dropWhile_head_not _

theorem mem_of_mem_trimWsL {c : Char} {l : List Char} (h : c ∈ trimWsL l) :
    c ∈ l := by
  rw [trimWsL, List.mem_reverse] at h
  have h2 := mem_of_mem_dropWhile h
  rw [List.mem_reverse] at h2
  exact mem_of_mem_dropWhile h2

theorem noWsRun_trimWsL (l : List Char) (h : NoWsRun l) : NoWsRun (trimWsL l) := by
  rw [trimWsL]
  exact noWsRun_reverse _ (noWsRun_dropWhile _ (noWsRun_reverse _ (noWsRun_dropWhile _ h)))

theorem trimWsL_eq_self (l : List Char) (h1 : HeadNotWs l)
    (h2 : HeadNotWs l.reverse) : trimWsL l = l := by
  rw [trimWsL, dropWhile_eq_self_of_head l h1, dropWhile_eq_self_of_head _ h2,
    List.reverse_reverse]

theorem map_replNl_eq_self (l : List Char)
    (h : ∀ c ∈ l, isPyWs c = true → c = ' ') : l.map replNl = l := by
  induction l with
  | nil => rfl
  | cons x xs ih =>
    have hx : replNl x = x := by
      unfold replNl
      by_cases hnl : x = '\n'
      · subst hnl
        exact absurd (h '\n' (by simp) (by decide)) (by decide)
      · simp [hnl]
    rw [List.map_cons, hx, ih (fun c hc => h c (List.mem_cons_of_mem x hc))]

/-! ### Rational-level reading of the rounding arithmetic -/

/-- Round half to even on a rational, as a rational-level definition
(the specification's "rounded to 3 decimal places" reads the value, not
the mantissa representation). -/
def roundHalfEvenQ (y : ℚ) : ℤ :=
  if y - ⌊y⌋ < 1 / 2 then ⌊y⌋
  else if (1 : ℚ) / 2 < y - ⌊y⌋ then ⌊y⌋ + 1
  else if ⌊y⌋ % 2 = 0 then ⌊y⌋ else ⌊y⌋ + 1

/-- Round a rational to 3 decimal places, ties to even (Python
`round(x, 3)` on exact values). -/
def round3Q (q : ℚ) : ℚ := (roundHalfEvenQ (q * 1000) : ℚ) / 1000

theorem floor_cast_div_pow (a : ℤ) (b : ℕ) :
    ⌊(a : ℚ) / (((10 : ℤ) ^ b : ℤ) : ℚ)⌋ = a.fdiv ((10 : ℤ) ^ b) := by
  have hd : (0 : ℤ) < (10 : ℤ) ^ b := pow_pos (by norm_num) b
  have hdq : (0 : ℚ) < (((10 : ℤ) ^ b : ℤ) : ℚ) := by exact_mod_cast hd
  have hm := Int.fdiv_add_fmod a ((10 : ℤ) ^ b)
  have hnn : 0 ≤ a.fmod ((10 : ℤ) ^ b) := Int.fmod_nonneg' a hd
  have hub : a.fmod ((10 : ℤ) ^ b) < (10 : ℤ) ^ b := Int.fmod_lt_of_pos a hd
  rw [Int.floor_eq_iff]
  constructor
  · rw [le_div_iff hdq]
    have hz : a.fdiv ((10 : ℤ) ^ b) * (10 : ℤ) ^ b ≤ a := by linarith [hm, hnn]
    calc (a.fdiv ((10 : ℤ) ^ b) : ℚ) * (((10 : ℤ) ^ b : ℤ) : ℚ)
        = ((a.fdiv ((10 : ℤ) ^ b) * (10 : ℤ) ^ b : ℤ) : ℚ) := by push_cast; ring
      _ ≤ (a : ℚ) := by exact_mod_cast hz
  · rw [div_lt_iff hdq]
    have hz : a < (a.fdiv ((10 : ℤ) ^ b) + 1) * (10 : ℤ) ^ b := by linarith [hm, hub]
    calc (a : ℚ) < (((a.fdiv ((10 : ℤ) ^ b) + 1) * (10 : ℤ) ^ b : ℤ) : ℚ) := by
          exact_mod_cast hz
      _ = ((a.fdiv ((10 : ℤ) ^ b) : ℚ) + 1) * (((10 : ℤ) ^ b : ℤ) : ℚ) := by push_cast; ring

theorem fract_cast_div_pow (a : ℤ) (b : ℕ) :
    (a : ℚ) / (((10 : ℤ) ^ b : ℤ) : ℚ) - (a.fdiv ((10 : ℤ) ^ b) : ℚ)
      = (a.fmod ((10 : ℤ) ^ b) : ℚ) / (((10 : ℤ) ^ b : ℤ) : ℚ) := by
  have hd : (0 : ℤ) < (10 : ℤ) ^ b := pow_pos (by norm_num) b
  have hdq : (0 : ℚ) < (((10 : ℤ) ^ b : ℤ) : ℚ) := by exact_mod_cast hd
  have hmq : (((10 : ℤ) ^ b : ℤ) : ℚ) * (a.fdiv ((10 : ℤ) ^ b) : ℚ)
      + (a.fmod ((10 : ℤ) ^ b) : ℚ) = (a : ℚ) := by
    exact_mod_cast congrArg (fun z : ℤ => (z : ℚ)) (Int.fdiv_add_fmod a ((10 : ℤ) ^ b))
  field_simp
  push_cast at hmq ⊢
  linarith [hmq]

theorem roundHalfEvenQ_cast_div (a : ℤ) (b : ℕ) :
    roundHalfEvenQ ((a : ℚ) / (((10 : ℤ) ^ b : ℤ) : ℚ)) = roundHalfEvenDiv a b := by
  have hd : (0 : ℤ) < (10 : ℤ) ^ b := pow_pos (by norm_num) b
  have hdq : (0 : ℚ) < (((10 : ℤ) ^ b : ℤ) : ℚ) := by exact_mod_cast hd
  have h1 : ((a.fmod ((10 : ℤ) ^ b) : ℚ) / (((10 : ℤ) ^ b : ℤ) : ℚ) < 1 / 2)
      ↔ (2 * a.fmod ((10 : ℤ) ^ b) < (10 : ℤ) ^ b) := by
    rw [div_lt_div_iff hdq (by norm_num : (0 : ℚ) < 2)]
    rw [show (a.fmod ((10 : ℤ) ^ b) : ℚ) * 2 = ((2 * a.fmod ((10 : ℤ) ^ b) : ℤ) : ℚ) by
        push_cast; ring,
      show (1 : ℚ) * (((10 : ℤ) ^ b : ℤ) : ℚ) = (((10 : ℤ) ^ b : ℤ) : ℚ) by ring]
    exact Int.cast_lt
  have h2 : ((1 : ℚ) / 2 < (a.fmod ((10 : ℤ) ^ b) : ℚ) / (((10 : ℤ) ^ b : ℤ) : ℚ))
      ↔ ((10 : ℤ) ^ b < 2 * a.fmod ((10 : ℤ) ^ b)) := by
    rw [div_lt_div_iff (by norm_num : (0 : ℚ) < 2) hdq]
    rw [show (1 : ℚ) * (((10 : ℤ) ^ b : ℤ) : ℚ) = (((10 : ℤ) ^ b : ℤ) : ℚ) by ring,
      show (a.fmod ((10 : ℤ) ^ b) : ℚ) * 2 = ((2 * a.fmod ((10 : ℤ) ^ b) : ℤ) : ℚ) by
        push_cast; ring]
    exact Int.cast_lt
  unfold roundHalfEvenQ roundHalfEvenDiv
  rw [floor_cast_div_pow, fract_cast_div_pow]
  simp only [h1, h2]

/-- The code-side rounded value read at the rational level. -/
theorem mkRat_roundMil (m : ℤ) (e : ℕ) :
    (mkRat (roundMil m e) 1000 : ℚ) = round3Q ((m : ℚ) / (((10 : ℤ) ^ e : ℤ) : ℚ)) := by
  have he : ((m : ℚ) / (((10 : ℤ) ^ e : ℤ) : ℚ)) * 1000
      = ((m * 1000 : ℤ) : ℚ) / (((10 : ℤ) ^ e : ℤ) : ℚ) := by
    push_cast; ring
  rw [round3Q, he, roundHalfEvenQ_cast_div, Rat.mkRat_eq_div, roundMil]
  norm_num

/-! ### Sign lemmas for the rounding -/

theorem roundHalfEvenDiv_nonneg (x : ℤ) (b : ℕ) (hx : 0 ≤ x) :
    0 ≤ roundHalfEvenDiv x b := by
  unfold roundHalfEvenDiv
  have hd : (0 : ℤ) < (10 : ℤ) ^ b := pow_pos (by norm_num) b
  have hf : 0 ≤ x.fdiv ((10 : ℤ) ^ b) := Int.fdiv_nonneg hx (le_of_lt hd)
  split_ifs <;> omega

theorem roundHalfEvenDiv_nonpos (x : ℤ) (b : ℕ) (hx : x ≤ 0) :
    roundHalfEvenDiv x b ≤ 0 := by
  unfold roundHalfEvenDiv
  have hd : (0 : ℤ) < (10 : ℤ) ^ b := pow_pos (by norm_num) b
  have hm := Int.fdiv_add_fmod x ((10 : ℤ) ^ b)
  have hnn : 0 ≤ x.fmod ((10 : ℤ) ^ b) := Int.fmod_nonneg' x hd
  have hub : x.fmod ((10 : ℤ) ^ b) < (10 : ℤ) ^ b := Int.fmod_lt_of_pos x hd
  have hf : x.fdiv ((10 : ℤ) ^ b) ≤ 0 := by nlinarith [hm, hnn, hd]
  have hkey : x.fdiv ((10 : ℤ) ^ b) = 0 → x.fmod ((10 : ℤ) ^ b) ≤ 0 := by
    intro h0
    rw [h0, mul_zero, zero_add] at hm
    omega
  rcases lt_or_eq_of_le hf with hlt | heq
  · split_ifs <;> omega
  · have := hkey heq
    split_ifs <;> omega

theorem mkRat_1000_nonneg (r : ℤ) (h : 0 ≤ r) : (0 : ℚ) ≤ mkRat r 1000 := by
  rw [Rat.mkRat_eq_div]
  apply div_nonneg
  · exact_mod_cast h
  · norm_num

theorem mkRat_1000_nonpos (r : ℤ) (h : r ≤ 0) : mkRat r 1000 ≤ (0 : ℚ) := by
  rw [Rat.mkRat_eq_div]
  apply div_nonpos_iff.mpr
  right
  constructor
  · exact_mod_cast h
  · norm_num

/-! ### Association-list lemmas for the orchestrator -/

/-- The 27 metric keys in source order. -/
def metricKeys : List String :=
  ["revenue", "consolidated_net_sales", "consolidated_operating_income",
   "orders", "total_orders", "marketplace_gov", "adjusted_ebitda",
   "lumber_segment_adjusted_ebitda", "available_liquidity", "liquidity",
   "net_cash_balance", "credit_facility", "cash_flow", "net_revenue_margin",
   "gaap_net_income", "net_income", "gaap_diluted_eps", "adjusted_eps",
   "actual_eps", "share_buybacks_and_dividends", "combined_rate_ar6",
   "total_net_sales", "free_cash_flow", "interest_expense",
   "adjusted_net_income", "gaap_operating_income", "total_available_liquidity"]

theorem metricFns_keys (P : Parsers) : (metricFns P).map Prod.fst = metricKeys := rfl

theorem lookup_none_of_not_mem_keys {β : Type} (l : List (String × β)) (k : String)
    (h : k ∉ l.map Prod.fst) : l.lookup k = none := by
  induction l with
  | nil => rfl
  | cons p rest ih =>
    cases p with
    | mk k' v =>
      rw [List.map_cons] at h
      have h1 : k ≠ k' := fun hc => h (by rw [hc]; exact List.mem_cons_self _ _)
      have h2 : k ∉ rest.map Prod.fst := fun hc => h (List.mem_cons_of_mem _ hc)
      have hkb : (k == k') = false := beq_eq_false_iff_ne.mpr h1
      simp only [List.lookup, hkb]
      exact ih h2

theorem mem_keys_of_lookup {β : Type} (l : List (String × β)) (k : String) (v : β)
    (h : l.lookup k = some v) : k ∈ l.map Prod.fst := by
  induction l with
  | nil => simp [List.lookup] at h
  | cons p rest ih =>
    cases p with
    | mk k' w =>
      by_cases hk : (k == k') = true
      · simp [beq_iff_eq.mp hk]
      · simp only [List.lookup, hk] at h
        exact List.mem_cons_of_mem _ (ih h)

theorem lookup_removeNull_none (l : List (String × Option ℚ)) (k : String)
    (h : ∀ p ∈ l, p.1 = k → p.2 = none) :
    (remove_null_metrics l).lookup k = none := by
  induction l with
  | nil => rfl
  | cons p rest ih =>
    have hrest : ∀ p ∈ rest, p.1 = k → p.2 = none :=
      fun q hq => h q (List.mem_cons_of_mem _ hq)
    cases p with
    | mk k' v =>
      cases v with
      | none =>
        simpa [remove_null_metrics, List.filterMap_cons] using ih hrest
      | some x =>
        by_cases hk : (k == k') = true
        · exact absurd (h (k', some x) (by simp) (beq_iff_eq.mp hk).symm) (by simp)
        · simp only [remove_null_metrics, List.filterMap_cons, Option.map_some,
            List.lookup, hk] at ih ⊢
          exact ih hrest

theorem lookup_removeNull_some (l : List (String × Option ℚ)) (k : String) (v : ℚ)
    (hex : ∃ p ∈ l, p.1 = k)
    (hall : ∀ p ∈ l, p.1 = k → p.2 = some v) :
    (remove_null_metrics l).lookup k = some v := by
  induction l with
  | nil => rcases hex with ⟨p, hp, _⟩; simp at hp
  | cons p rest ih =>
    have hrest : ∀ p ∈ rest, p.1 = k → p.2 = some v :=
      fun q hq => hall q (List.mem_cons_of_mem _ hq)
    cases p with
    | mk k' w =>
      by_cases hk : k' = k
      · have hw : w = some v := hall (k', w) (by simp) hk
        subst hw
        subst hk
        simp [remove_null_metrics, List.filterMap_cons, List.lookup]
      · have hex' : ∃ p ∈ rest, p.1 = k := by
          rcases hex with ⟨q, hq, hq1⟩
          rcases List.mem_cons.mp hq with rfl | hmem
          · exact absurd hq1 hk
          · exact ⟨q, hmem, hq1⟩
        have hkb : (k == k') = false := beq_eq_false_iff_ne.mpr (fun hc => hk hc.symm)
        cases w with
        | none =>
          simpa [remove_null_metrics, List.filterMap_cons] using ih hex' hrest
        | some x =>
          simp only [remove_null_metrics, List.filterMap_cons, Option.map_some,
            List.lookup, hkb] at ih ⊢
          exact ih hex' hrest

theorem metric_entry_values (fns : List (String × (String → Option ℚ)))
    (text : String) (k : String) (f : String → Option ℚ)
    (hnd : (fns.map Prod.fst).Nodup)
    (hlk : fns.lookup k = some f) :
    ∀ p ∈ fns.map (fun kf => (kf.1, kf.2 text)), p.1 = k → p.2 = f text := by
  induction fns with
  | nil => simp [List.lookup] at hlk
  | cons kf rest ih =>
    cases kf with
    | mk k0 f0 =>
      intro p hp hpk
      rw [List.map_cons] at hnd
      rw [List.map_cons] at hp
      rcases List.mem_cons.mp hp with rfl | hmem
      · -- p is the head entry (k0, f0 text); so k0 = k
        simp only at hpk
        have hkb : (k == k0) = true := beq_iff_eq.mpr hpk.symm
        simp only [List.lookup, hkb, Option.some.injEq] at hlk
        simp [hlk]
      · -- p is in the mapped tail
        by_cases hk : (k == k0) = true
        · -- nodup: k0 ∉ rest keys, but p.1 = k = k0 comes from rest
          exfalso
          have hk0 : k0 = k := (beq_iff_eq.mp hk).symm
          have hpmem : p.1 ∈ rest.map Prod.fst := by
            rcases List.mem_map.mp hmem with ⟨q, hq, rfl⟩
            exact List.mem_map_of_mem Prod.fst hq
          have : k0 ∈ rest.map Prod.fst := by rw [hk0, ← hpk]; exact hpmem
          exact (List.nodup_cons.mp hnd).1 this
        · simp only [List.lookup, hk] at hlk
          exact ih (List.nodup_cons.mp hnd).2 hlk p hmem hpk

theorem narrative_lookup (fnl : List (String × (String → List String)))
    (text : String) (k : String) (h : k ∈ fnl.map Prod.fst) :
    ∃ ls, (fnl.map (fun kf => (kf.1, MetricOut.sents (kf.2 text)))).lookup k
      = some (MetricOut.sents ls) := by
  induction fnl with
  | nil => simp at h
  | cons kf rest ih =>
    cases kf with
    | mk k0 g =>
      rw [List.map_cons] at h
      by_cases hk : (k == k0) = true
      · exact ⟨g text, by simp [List.lookup, hk]⟩
      · rcases List.mem_cons.mp h with rfl | hmem
        · exact absurd (beq_iff_eq.mpr rfl) hk
        · rcases ih hmem with ⟨ls, hls⟩
          exact ⟨ls, by simpa [List.lookup, hk] using hls⟩

theorem removeNull_keys_subset (l : List (String × Option ℚ)) :
    ((remove_null_metrics l).map Prod.fst) ⊆ l.map Prod.fst := by
  induction l with
  | nil => simp [remove_null_metrics]
  | cons p rest ih =>
    cases p with
    | mk k' v =>
      cases v with
      | none =>
        simp only [remove_null_metrics, List.filterMap_cons] at ih ⊢
        exact fun a ha => List.mem_cons_of_mem _ (ih ha)
      | some x =>
        simp only [remove_null_metrics, List.filterMap_cons, Option.map_some] at ih ⊢
        intro a ha
        rcases List.mem_cons.mp ha with rfl | hmem
        · simp
        · exact List.mem_cons_of_mem _ (ih hmem)

theorem keys_map_num (l : List (String × ℚ)) :
    ((l.map (fun kv => (kv.1, MetricOut.num kv.2))).map Prod.fst) = l.map Prod.fst := by
  induction l with
  | nil => rfl
  | cons p rest ih => simp [ih]

theorem lookup_map_num (l : List (String × ℚ)) (k : String) :
    (l.map (fun kv => (kv.1, MetricOut.num kv.2))).lookup k
      = (l.lookup k).map MetricOut.num := by
  induction l with
  | nil => rfl
  | cons p rest ih =>
    cases p with
    | mk k' v =>
      by_cases hk : (k == k') = true
      · simp [List.lookup, hk]
      · simp only [List.map_cons, List.lookup, hk]
        exact ih

/-- The metric half of the `extract_metrics` output. -/
def metricPart (P : Parsers) (text : String) : List (String × MetricOut) :=
  (remove_null_metrics ((metricFns P).map (fun kf => (kf.1, kf.2 text)))).map
    (fun kv => (kv.1, MetricOut.num kv.2))

theorem extract_metrics_eq (P : Parsers) (text : String) :
    extract_metrics P text = metricPart P text
      ++ (narrativeFns P).map (fun kf => (kf.1, MetricOut.sents (kf.2 text))) := rfl

theorem metricPart_keys_subset (P : Parsers) (text : String) :
    (metricPart P text).map Prod.fst ⊆ metricKeys := by
  rw [metricPart, keys_map_num]
  intro a ha
  have := removeNull_keys_subset ((metricFns P).map (fun kf => (kf.1, kf.2 text))) ha
  rwa [(rfl : ((metricFns P).map (fun kf => (kf.1, kf.2 text))).map Prod.fst = metricKeys)]
    at this

/-- Orchestrator helper: a metric key whose matcher returned `none` is
absent from the output. -/
theorem extract_metrics_lookup_none (P : Parsers) (text : String) (k : String)
    (f : String → Option ℚ) (hlk : (metricFns P).lookup k = some f)
    (hnone : f text = none) : (extract_metrics P text).lookup k = none := by
  have hnd : ((metricFns P).map Prod.fst).Nodup := by
    rw [metricFns_keys]; decide
  have hall := metric_entry_values (metricFns P) text k f hnd hlk
  have hm : (remove_null_metrics ((metricFns P).map (fun kf => (kf.1, kf.2 text)))).lookup k
      = none := by
    apply lookup_removeNull_none
    intro p hp hpk
    rw [hall p hp hpk, hnone]
  have hmp : (metricPart P text).lookup k = none := by
    rw [metricPart, lookup_map_num, hm]; rfl
  have hmem : k ∈ metricKeys := by
    have := mem_keys_of_lookup (metricFns P) k f hlk
    rwa [metricFns_keys] at this
  have hnarr : ((narrativeFns P).map
      (fun kf => (kf.1, MetricOut.sents (kf.2 text)))).lookup k = none := by
    apply lookup_none_of_not_mem_keys
    rw [(rfl : ((narrativeFns P).map
      (fun kf => (kf.1, MetricOut.sents (kf.2 text)))).map Prod.fst = narrativeKeys)]
    revert hmem
    have : ∀ k ∈ metricKeys, k ∉ narrativeKeys := by decide
    exact this k
  rw [extract_metrics_eq, List.lookup_append, hmp, hnarr]
  rfl

/-- Orchestrator helper: a metric key whose matcher returned a value is
present with that value. -/
theorem extract_metrics_lookup_num (P : Parsers) (text : String) (k : String)
    (f : String → Option ℚ) (v : ℚ) (hlk : (metricFns P).lookup k = some f)
    (hv : f text = some v) :
    (extract_metrics P text).lookup k = some (MetricOut.num v) := by
  have hnd : ((metricFns P).map Prod.fst).Nodup := by
    rw [metricFns_keys]; decide
  have hall := metric_entry_values (metricFns P) text k f hnd hlk
  have hmemf : k ∈ (metricFns P).map Prod.fst := mem_keys_of_lookup (metricFns P) k f hlk
  have hex : ∃ p ∈ (metricFns P).map (fun kf => (kf.1, kf.2 text)), p.1 = k := by
    rcases List.mem_map.mp hmemf with ⟨kf, hkf, hfst⟩
    exact ⟨(kf.1, kf.2 text), List.mem_map_of_mem _ hkf, hfst⟩
  have hm : (remove_null_metrics ((metricFns P).map (fun kf => (kf.1, kf.2 text)))).lookup k
      = some v := by
    apply lookup_removeNull_some _ _ _ hex
    intro p hp hpk
    rw [hall p hp hpk, hv]
  have hmp : (metricPart P text).lookup k = some (MetricOut.num v) := by
    rw [metricPart, lookup_map_num, hm]; rfl
  rw [extract_metrics_eq, List.lookup_append, hmp]
  rfl

/-- Orchestrator helper: every narrative category key is present with a
sentence-list value. -/
theorem extract_metrics_narrative (P : Parsers) (text : String) (k : String)
    (hk : k ∈ narrativeKeys) :
    ∃ ls, (extract_metrics P text).lookup k = some (MetricOut.sents ls) := by
  have hmp : (metricPart P text).lookup k = none := by
    apply lookup_none_of_not_mem_keys
    intro hc
    have hmem := metricPart_keys_subset P text hc
    have : ∀ j ∈ narrativeKeys, j ∉ metricKeys := by decide
    exact this k hk hmem
  have hnk : k ∈ (narrativeFns P).map Prod.fst := by
    rwa [(rfl : (narrativeFns P).map Prod.fst = narrativeKeys)]
  rcases narrative_lookup (narrativeFns P) text k hnk with ⟨ls, hls⟩
  refine ⟨ls, ?_⟩
  rw [extract_metrics_eq, List.lookup_append, hmp, hls]
  rfl

/-! ### Claim theorems -/

/-- The C1 normalization rule as the specification words it, applied to
the parsed value `q` and the cleaned unit token `u`: a billion-family
unit multiplies by 1000, a million-family unit is the identity, a
thousand-family unit divides by 1000, anything else divides by 1,000,000
exactly when the value is at least 1,000,000 and is returned as-is
otherwise; the result is rounded to 3 decimal places. -/
def c1SpecValue (q : ℚ) (u : String) : ℚ :=
  if u ∈ ["billion", "bn", "b"] then round3Q (q * 1000)
  else if u ∈ ["million", "mn", "mm", "m"] then round3Q q
  else if u ∈ ["thousand", "k"] then round3Q (q / 1000)
  else if 1000000 ≤ q then round3Q (q / 1000000)
  else round3Q q

/-- C1, amended: for every numeric literal string that parses after
stripping commas and currency marks, `normalize_number` returns the
value in millions rounded to 3 decimal places computed by the
billion/million/thousand/threshold rule, and in particular
('2.5','billion') gives 2500.0, ('1500000', None) gives 1.5,
('500','thousand') gives 0.5, and ('750', None) gives 750.0 — not
0.00075, since 750 is below the 1,000,000 threshold (the amendment the
counterexample forces on the claim's final example). -/
theorem C1_unit_normalization :
    (∀ (s : String) (unit : Option String) (m : ℤ) (e : ℕ),
      pyFloatDec? (removeChars [',', '$'] s.data) = some (m, e) →
      normalize_number s unit =
        some (c1SpecValue ((m : ℚ) / (((10 : ℤ) ^ e : ℤ) : ℚ))
          (String.mk (trimWsL (lowerL (unit.getD "").data))))) ∧
    normalize_number "2.5" (some "billion") = some 2500 ∧
    normalize_number "1500000" none = some (3 / 2) ∧
    normalize_number "500" (some "thousand") = some (1 / 2) ∧
    normalize_number "750" none = some 750 := by
  refine ⟨?_, by decide, ?_, ?_, by decide⟩
  · intro s unit m e hp
    have hd : (0 : ℤ) < (10 : ℤ) ^ e := pow_pos (by norm_num) e
    have hdq : (0 : ℚ) < (((10 : ℤ) ^ e : ℤ) : ℚ) := by exact_mod_cast hd
    have hthr : (m ≥ 1000000 * (10 : ℤ) ^ e) ↔
        ((1000000 : ℚ) ≤ (m : ℚ) / (((10 : ℤ) ^ e : ℤ) : ℚ)) := by
      rw [ge_iff_le, le_div_iff hdq]
      constructor <;> intro h <;> exact_mod_cast h
    unfold normalize_number c1SpecValue
    rw [hp]
    set u := String.mk (trimWsL (lowerL (unit.getD "").data)) with hu
    dsimp only
    by_cases h1 : u ∈ ["billion", "bn", "b"]
    · rw [if_pos h1, if_pos h1, mkRat_roundMil]
      exact congrArg (fun x => some (round3Q x)) (by push_cast; ring)
    rw [if_neg h1, if_neg h1]
    by_cases h2 : u ∈ ["million", "mn", "mm", "m"]
    · rw [if_pos h2, if_pos h2, mkRat_roundMil]
    rw [if_neg h2, if_neg h2]
    by_cases h3 : u ∈ ["thousand", "k"]
    · rw [if_pos h3, if_pos h3, mkRat_roundMil]
      refine congrArg (fun x => some (round3Q x)) ?_
      push_cast
      rw [pow_add]
      ring
    rw [if_neg h3, if_neg h3]
    by_cases h4 : m ≥ 1000000 * (10 : ℤ) ^ e
    · rw [if_pos h4, if_pos (hthr.mp h4), mkRat_roundMil]
      refine congrArg (fun x => some (round3Q x)) ?_
      push_cast
      rw [pow_add]
      ring
    · rw [if_neg h4, if_neg (fun hc => h4 (hthr.mpr hc)), mkRat_roundMil]
  · have h : normalize_number "1500000" none = some (mkRat 1500 1000) := by decide
    rw [h, Rat.mkRat_eq_div]
    norm_num
  · have h : normalize_number "500" (some "thousand") = some (mkRat 500 1000) := by decide
    rw [h, Rat.mkRat_eq_div]
    norm_num

/-- C1 witness: the general rule applied at ('2.5','billion'). -/
theorem C1_unit_normalization_witness :
    normalize_number "2.5" (some "billion") =
      some (c1SpecValue ((25 : ℚ) / (((10 : ℤ) ^ 1 : ℤ) : ℚ))
        (String.mk (trimWsL (lowerL ((some "billion").getD "").data)))) :=
  C1_unit_normalization.1 "2.5" (some "billion") 25 1 (by decide)

/-- C1 counterexample: the claim's example "('750', None) with raw
value ≥ 1e6 gives 0.00075" fails on the code: the raw value of '750' is
750, which is below the threshold, and the code returns 750.0, not
0.00075. -/
theorem C1_counterexample_750 :
    normalize_number "750" none = some 750 ∧
    ¬(normalize_number "750" none = some (3 / 4000)) := by
  have h : normalize_number "750" none = some (750 : ℚ) := by decide
  refine ⟨h, ?_⟩
  intro hc
  rw [h] at hc
  exact absurd (Option.some.inj hc) (by norm_num)

/-- C9: the Text Normalizer is idempotent — collapsing every whitespace
run (newlines and tabs included) to a single space and trimming is a
fixed point after one application. -/
theorem C9_clean_text_idempotent (s : String) :
    clean_text (clean_text s) = clean_text s := by
  have hdata : ∀ l : List Char, (String.mk l).data = l := fun l => rfl
  unfold clean_text
  rw [hdata]
  set l' := trimWsL (collapseWsAux false (s.data.map replNl)) with hl'
  have A1 : ∀ c ∈ l', isPyWs c = true → c = ' ' :=
    fun c hc => collapse_ws_space false _ c (mem_of_mem_trimWsL hc)
  have A2 : NoWsRun l' := noWsRun_trimWsL _ (collapse_chain false _)
  have A3 : HeadNotWs l' := trimWsL_head _
  have A4 : HeadNotWs l'.reverse := trimWsL_last _
  rw [map_replNl_eq_self l' A1, collapse_id l' A2 A1, trimWsL_eq_self l' A3 A4]

/-- C2: the extraction result omits every metric key whose matcher
returned no value (no key is ever present with a null placeholder),
while every narrative category key is always present with a (possibly
empty) sentence list; in particular a document on which the revenue
matcher fails has no revenue key at all. -/
theorem C2_pruning_and_presence (P : Parsers) (text : String) :
    (∀ k, k ∈ narrativeKeys →
      ∃ ls, (extract_metrics P text).lookup k = some (MetricOut.sents ls)) ∧
    (∀ k f, (metricFns P).lookup k = some f → f text = none →
      (extract_metrics P text).lookup k = none) ∧
    (∀ k f v, (metricFns P).lookup k = some f → f text = some v →
      (extract_metrics P text).lookup k = some (MetricOut.num v)) ∧
    (P.parse_revenue text = none →
      (extract_metrics P text).lookup "revenue" = none) := by
  refine ⟨fun k hk => extract_metrics_narrative P text k hk,
    fun k f hlk hn => extract_metrics_lookup_none P text k f hlk hn,
    fun k f v hlk hv => extract_metrics_lookup_num P text k f v hlk hv,
    fun hn => extract_metrics_lookup_none P text "revenue" P.parse_revenue rfl hn⟩

/-- A matcher that always fails. -/
def noMetric : String → Option ℚ := fun _ => none

/-- A classifier that returns no sentences. -/
def noSents : String → List String := fun _ => []

/-- A registry instance in which every matcher fails and every
classifier returns no sentences. -/
def constParsers : Parsers where
  parse_revenue := noMetric
  parse_consolidated_net_sales := noMetric
  parse_consolidated_operating_income := noMetric
  parse_orders := noMetric
  parse_total_orders := noMetric
  parse_marketplace_gov := noMetric
  parse_adjusted_ebitda := noMetric
  parse_lumber_segment_adjusted_ebitda := noMetric
  parse_available_liquidity := noMetric
  parse_liquidity := noMetric
  parse_net_cash_balance := noMetric
  parse_credit_facility := noMetric
  parse_cash_flow := noMetric
  parse_net_revenue_margin := noMetric
  parse_gaap_net_income := noMetric
  parse_net_income := noMetric
  parse_gaap_diluted_eps := noMetric
  parse_adjusted_eps := noMetric
  parse_actual_eps := noMetric
  parse_share_buybacks_and_dividends := noMetric
  parse_combined_rate_ar6 := noMetric
  parse_total_net_sales := noMetric
  parse_free_cash_flow := noMetric
  parse_interest_expense := noMetric
  parse_adjusted_net_income := noMetric
  parse_gaap_operating_income := noMetric
  parse_total_available_liquidity := noMetric
  extract_guidance_sentences := noSents
  extract_forward_looking_statements := noSents
  extract_prior_year_comparisons := noSents
  extract_year_over_year_sentences := noSents
  extract_compared_to_sentences := noSents
  extract_raising_sentences := noSents
  extract_refinance_sentences := noSents
  extract_production_sentences := noSents
  extract_outlook_sentences := noSents
  extract_demand_sentences := noSents
  extract_challenge_sentences := noSents

/-- C2 witness: on a registry whose matchers all fail, the guidance
category is still present and the revenue and net income keys are
absent. -/
theorem C2_pruning_witness :
    (∃ ls, (extract_metrics constParsers "no metrics here").lookup "guidance"
      = some (MetricOut.sents ls)) ∧
    (extract_metrics constParsers "no metrics here").lookup "net_income" = none ∧
    (extract_metrics constParsers "no metrics here").lookup "revenue" = none := by
  have h := C2_pruning_and_presence constParsers "no metrics here"
  exact ⟨h.1 "guidance" (by decide),
    h.2.1 "net_income" constParsers.parse_net_income rfl rfl,
    h.2.2.2 rfl⟩

theorem roundMil_nonneg (x : ℤ) (b : ℕ) (hx : 0 ≤ x) : 0 ≤ roundMil x b :=
  roundHalfEvenDiv_nonneg _ _ (by omega)

theorem roundMil_nonpos (x : ℤ) (b : ℕ) (hx : x ≤ 0) : roundMil x b ≤ 0 :=
  roundHalfEvenDiv_nonpos _ _ (by omega)

/-- Sign analysis of `parse_actual_eps`: whatever path produced the
value, its sign agrees with the loss-marker search over the whole
normalized text. -/
theorem parse_actual_eps_sign (t : String) (v : ℚ) (h : parse_actual_eps t = some v) :
    (hasLossMarker (lowerL (clean_text t).data) = true → v ≤ 0) ∧
    (hasLossMarker (lowerL (clean_text t).data) = false → 0 ≤ v) := by
  unfold parse_actual_eps at h
  dsimp only at h
  cases hs : reSearch actual_eps_pat (lowerL (clean_text t).data) with
  | some caps =>
    rw [hs] at h
    dsimp only at h
    cases hp : pyFloatDec? (removeChars [','] ((caps.lookup 1).getD [])) with
    | some p =>
      obtain ⟨m, e⟩ := p
      rw [hp] at h
      dsimp only at h
      have hv := Option.some.inj h
      constructor
      · intro hm
        rw [hm] at hv
        simp only [if_true] at hv
        rw [← hv]
        exact mkRat_1000_nonpos _ (roundMil_nonpos _ _ (by omega))
      · intro hm
        rw [hm] at hv
        simp only [Bool.false_eq_true, if_false] at hv
        rw [← hv]
        exact mkRat_1000_nonneg _ (roundMil_nonneg _ _ (by omega))
    | none => rw [hp] at h; exact absurd h (by simp)
  | none =>
    rw [hs] at h
    dsimp only at h
    cases hs2 : reSearch spoken_eps_pat (lowerL (clean_text t).data) with
    | some caps =>
      rw [hs2] at h
      dsimp only at h
      cases hn : spoken_to_number (String.mk ((caps.lookup 1).getD [])) with
      | some n =>
        rw [hn] at h
        dsimp only at h
        have hv := Option.some.inj h
        constructor
        · intro hm
          rw [hm] at hv
          simp only [if_true] at hv
          rw [← hv]
          exact mkRat_1000_nonpos _ (roundMil_nonpos _ _ (by omega))
        · intro hm
          rw [hm] at hv
          simp only [Bool.false_eq_true, if_false] at hv
          rw [← hv]
          exact mkRat_1000_nonneg _ (roundMil_nonneg _ _ (by omega))
      | none => rw [hn] at h; exact absurd h (by simp)
    | none => rw [hs2] at h; exact absurd h (by simp)

/-- C3, amended: for the net-income matcher the captured value is
negated exactly when the matched grammatical head noun is "loss" — an
explicit loss/negative/deficit marker elsewhere in the sentence does
not negate it (the amendment the counterexample forces) — while for the
actual-EPS matcher the sign follows the loss/negative/deficit marker
searched over the whole normalized text; in particular 'net loss of
$200 million' yields net_income = −200.0 and 'net income of $200
million' yields net_income = 200.0. -/
theorem C3_sign_inference :
    (∀ (s head : String) (v : ℚ) (rest : List String),
      netIncomeSentValue s = some (head, some v) →
      parse_net_income_loop (s :: rest) = some (if head = "loss" then -v else v)) ∧
    (∀ t v, parse_actual_eps t = some v →
      (hasLossMarker (lowerL (clean_text t).data) = true → v ≤ 0) ∧
      (hasLossMarker (lowerL (clean_text t).data) = false → 0 ≤ v)) ∧
    parse_net_income singleSent "net loss of $200 million" = some (-200) ∧
    parse_net_income singleSent "net income of $200 million" = some 200 := by
  refine ⟨?_, parse_actual_eps_sign, by decide, by decide⟩
  intro s head v rest hs
  unfold parse_net_income_loop
  rw [hs]
  rfl

/-- C3 counterexample: in 'Net income of $200 million, a deficit.' the
governing sentence contains the explicit marker 'deficit', so the claim
as stated requires a negated value; the head noun is 'income' and the
code returns +200.0. -/
theorem C3_counterexample_deficit_marker :
    parse_net_income singleSent "Net income of $200 million, a deficit." = some 200 ∧
    hasLossMarker (lowerL
      (clean_text "Net income of $200 million, a deficit.").data) = true ∧
    ¬(parse_net_income singleSent "Net income of $200 million, a deficit."
        = some (-200)) := by
  refine ⟨by decide, by decide, ?_⟩
  intro hc
  rw [(by decide : parse_net_income singleSent
    "Net income of $200 million, a deficit." = some (200 : ℚ))] at hc
  exact absurd (Option.some.inj hc) (by norm_num)

/-- C3 witness: the loop rule applied to the single sentence 'Net loss
of $5 million.'. -/
theorem C3_sign_inference_witness :
    parse_net_income_loop ["Net loss of $5 million."] =
      some (if "loss" = "loss" then -(5 : ℚ) else 5) :=
  C3_sign_inference.1 "Net loss of $5 million." "loss" 5 [] (by decide)

/-- C10: when the digit pattern captures a literal with an explicit
leading minus sign and no loss/negative/deficit word occurs anywhere in
the text, `parse_actual_eps` discards the literal's own sign and
returns the positive magnitude rounded to 3 decimals — the sign is
reconstructed solely from the lexical markers searched over the entire
normalized document text; in particular 'Actual EPS: -0.25' yields
0.25. -/
theorem C10_eps_sign_from_text_markers :
    (∀ (t : String) (m : ℤ) (e : ℕ),
      ((reSearch actual_eps_pat (lowerL (clean_text t).data)).bind
        (fun caps => pyFloatDec? (removeChars [','] ((caps.lookup 1).getD []))))
        = some (m, e) →
      hasLossMarker (lowerL (clean_text t).data) = false →
      parse_actual_eps t
        = some (round3Q ((m.natAbs : ℚ) / (((10 : ℤ) ^ e : ℤ) : ℚ)))) ∧
    parse_actual_eps "Actual EPS: -0.25" = some (1 / 4) := by
  constructor
  · intro t m e hb hm
    unfold parse_actual_eps
    dsimp only
    cases hs : reSearch actual_eps_pat (lowerL (clean_text t).data) with
    | none => rw [hs] at hb; exact absurd hb (by simp)
    | some caps =>
      rw [hs] at hb
      rw [Option.some_bind] at hb
      dsimp only
      rw [hb]
      dsimp only
      rw [hm]
      simp only [Bool.false_eq_true, if_false]
      rw [mkRat_roundMil]
      exact congrArg (fun x => some (round3Q x)) (by push_cast [Int.cast_natAbs]; ring)
  · have h : parse_actual_eps "Actual EPS: -0.25" = some (mkRat 250 1000) := by decide
    rw [h, Rat.mkRat_eq_div]
    norm_num

/-- C10 witness: the rule applied at 'Actual EPS: -0.25', whose capture
parses to −25/10². -/
theorem C10_eps_sign_witness :
    parse_actual_eps "Actual EPS: -0.25"
      = some (round3Q (((-25 : ℤ).natAbs : ℚ) / (((10 : ℤ) ^ 2 : ℤ) : ℚ))) :=
  C10_eps_sign_from_text_markers.1 "Actual EPS: -0.25" (-25) 2 (by decide) (by decide)

/-- C4: a text whose only metric mention is 'adjusted net income was
$50 million' yields adjusted_net_income = 50.0 and an output with no
net_income key at all; in general the plain net-income matcher skips
every sentence containing the phrase "adjusted net income". -/
theorem C4_confusable_exclusion (P : Parsers) (sents : String → List String)
    (hn : P.parse_net_income = parse_net_income sents)
    (ha : P.parse_adjusted_net_income = parse_adjusted_net_income)
    (hs : ∀ s ∈ sents (clean_text "adjusted net income was $50 million"),
      listContainsSub (lowerL s.data) ("adjusted net income".data) = true) :
    (∀ (sents' : String → List String) (t : String),
      (∀ s ∈ sents' (clean_text t),
        listContainsSub (lowerL s.data) ("adjusted net income".data) = true) →
      parse_net_income sents' t = none) ∧
    parse_adjusted_net_income "adjusted net income was $50 million" = some 50 ∧
    (extract_metrics P "adjusted net income was $50 million").lookup
      "adjusted_net_income" = some (MetricOut.num 50) ∧
    (extract_metrics P "adjusted net income was $50 million").lookup
      "net_income" = none := by
  have hgen : ∀ (sents' : String → List String) (t : String),
      (∀ s ∈ sents' (clean_text t),
        listContainsSub (lowerL s.data) ("adjusted net income".data) = true) →
      parse_net_income sents' t = none := by
    intro sents' t h
    unfold parse_net_income
    dsimp only
    have hf : (sents' (clean_text t)).filter
        (fun s => !(listContainsSub (lowerL s.data) "adjusted net income".data))
        = [] := by
      rw [List.filter_eq_nil_iff]
      intro a ha2
      simp [h a ha2]
    rw [hf]
    rfl
  have hadj : parse_adjusted_net_income "adjusted net income was $50 million"
      = some 50 := by decide
  refine ⟨hgen, hadj, ?_, ?_⟩
  · exact extract_metrics_lookup_num P _ "adjusted_net_income"
      P.parse_adjusted_net_income 50 rfl (by rw [ha]; exact hadj)
  · exact extract_metrics_lookup_none P _ "net_income" P.parse_net_income rfl
      (by rw [hn]; exact hgen sents _ hs)

/-- C4 witness: with the embedded matchers installed in the registry
and the one-sentence splitter, the adjusted value is extracted and the
net income key is absent. -/
theorem C4_confusable_exclusion_witness :
    parse_adjusted_net_income "adjusted net income was $50 million" = some 50 ∧
    (extract_metrics
      { constParsers with
          parse_net_income := parse_net_income singleSent,
          parse_adjusted_net_income := parse_adjusted_net_income }
      "adjusted net income was $50 million").lookup "net_income" = none := by
  have h := C4_confusable_exclusion
    { constParsers with
        parse_net_income := parse_net_income singleSent,
        parse_adjusted_net_income := parse_adjusted_net_income }
    singleSent rfl rfl (by decide)
  exact ⟨h.2.1, h.2.2.2⟩

/-- The C5 example: "revenue" followed by a near number and unit, and
about forty words later a `$`-prefixed 7+ digit literal. -/
def c5text : String :=
  "Revenue was 14.4 billion this quarter. We continued to invest in our platform and our teams delivered strong execution across every region while operating costs remained well controlled and the balance sheet stayed healthy and liquidity remained ample through the whole period under review. Separately we spent $12,000,000 on the new facility."

/-- C5: the revenue matcher's stages run in fixed order — the
near-keyword pattern is tried over all its `findall` occurrences first
(the first candidate whose number normalizes decides the result), and
the dollar-literal fallback, gated on "revenue" occurring anywhere in
the text, runs only when no near-keyword candidate normalized; on the
example text the near-keyword match (14.4 billion → 14400.0) takes
precedence over the later $12,000,000 literal. -/
theorem C5_revenue_cascade :
    (∀ t v, parse_revenue_loop (reFindAll revenue_pat (lowerL (clean_text t).data))
        = some v → parse_revenue t = some v) ∧
    (∀ t, parse_revenue_loop (reFindAll revenue_pat (lowerL (clean_text t).data))
        = none →
      parse_revenue t =
        (if listContainsSub (lowerL (clean_text t).data) ("revenue".data) then
          (match reSearch revenue_fallback_pat (clean_text t).data with
           | some caps => normalize_number (capD caps 1) none
           | none => none)
         else none)) ∧
    (∀ caps rest v, normalize_number (capD caps 2) (some (capD caps 3)) = some v →
      parse_revenue_loop (caps :: rest) = some v) ∧
    (∀ caps rest, normalize_number (capD caps 2) (some (capD caps 3)) = none →
      parse_revenue_loop (caps :: rest) = parse_revenue_loop rest) ∧
    parse_revenue c5text = some 14400 := by
  refine ⟨?_, ?_, ?_, ?_, by decide⟩
  · intro t v h
    unfold parse_revenue
    dsimp only
    rw [h]
  · intro t h
    unfold parse_revenue
    dsimp only
    rw [h]
  · intro caps rest v h
    unfold parse_revenue_loop
    rw [h]
  · intro caps rest h
    simp only [parse_revenue_loop]
    rw [h]

/-- C5 witness: the first-stage rule applied to the example text. -/
theorem C5_revenue_cascade_witness : parse_revenue c5text = some 14400 :=
  C5_revenue_cascade.1 c5text 14400 (by decide)

/-- The Spoken-Number Decoder as the specification words it: take the
maximal prefix of recognized tokens of the whitespace-split input,
concatenate their digit strings, and read the integer; no value when
zero tokens were consumed. -/
def spokenSpecDecode (text : String) : Option ℕ :=
  let pre := (splitWs (lowerL text.data)).takeWhile
    (fun tok => (spokenTokDigits tok).isSome)
  if pre = [] then none
  else some (digitsVal ((pre.map (fun tok => (spokenTokDigits tok).getD [])).flatten))

theorem spokenConsume_takeWhile (l : List (List Char)) :
    spokenConsume l = (l.takeWhile (fun tok => (spokenTokDigits tok).isSome)).map
      (fun tok => (spokenTokDigits tok).getD []) := by
  induction l with
  | nil => rfl
  | cons t ts ih =>
    cases h : spokenTokDigits t with
    | some d =>
      simp only [spokenConsume, h, List.takeWhile_cons, Option.isSome_some,
        List.map_cons, Option.getD_some, if_true]
      exact congrArg _ ih
    | none =>
      simp [spokenConsume, h, List.takeWhile_cons]

/-- C6: the Spoken-Number Decoder tokenizes on whitespace, consumes
tokens while each is a recognized number-word below one hundred, the
filler "oh"/"o", or a literal digit run, concatenates the recognized
digits, stops at the first unrecognized token, and returns the integer
(or no value when zero tokens were consumed); so 'three eighteen'
decodes to 318, 'actual EPS of seventeen cents' yields actual_eps =
0.17, and 'actual EPS of seventeen cents, a loss' yields −0.17. -/
theorem C6_spoken_decoder :
    (∀ s : String, spoken_to_number s = spokenSpecDecode s) ∧
    spoken_to_number "three eighteen" = some 318 ∧
    parse_actual_eps "actual EPS of seventeen cents" = some (17 / 100) ∧
    parse_actual_eps "actual EPS of seventeen cents, a loss"
      = some (-(17 / 100)) := by
  refine ⟨?_, by decide, ?_, ?_⟩
  · intro s
    unfold spoken_to_number spokenSpecDecode
    rw [spokenConsume_takeWhile]
    dsimp only
    rcases eq_or_ne ((splitWs (lowerL s.data)).takeWhile
        (fun tok => (spokenTokDigits tok).isSome)) [] with h | h
    · simp [h]
    · have hm : ((splitWs (lowerL s.data)).takeWhile
          (fun tok => (spokenTokDigits tok).isSome)).map
          (fun tok => (spokenTokDigits tok).getD []) ≠ [] := by
        simpa [List.map_eq_nil_iff] using h
      simp [h, hm]
  · have h : parse_actual_eps "actual EPS of seventeen cents"
        = some (mkRat 170 1000) := by decide
    rw [h, Rat.mkRat_eq_div]
    norm_num
  · have h : parse_actual_eps "actual EPS of seventeen cents, a loss"
        = some (mkRat (-170) 1000) := by decide
    rw [h, Rat.mkRat_eq_div]
    norm_num

/-- C7, amended: a captured literal that, stripped of commas and
currency marks, fails to parse makes the number normalization return no
value without raising; `parse_revenue`'s candidate loop then continues
with its remaining candidates (and its fallback stage still runs), but
`parse_net_income` returns no value for the whole matcher as soon as
the first regex-matching sentence has an unparsable capture, without
scanning the remaining sentences (the amendment the counterexample
forces on "the calling matcher … continues its fallback chain"). -/
theorem C7_unparsable_literal :
    (∀ (s : String) (u : Option String),
      pyFloatDec? (removeChars [',', '$'] s.data) = none →
      normalize_number s u = none) ∧
    (∀ caps rest, normalize_number (capD caps 2) (some (capD caps 3)) = none →
      parse_revenue_loop (caps :: rest) = parse_revenue_loop rest) ∧
    (∀ (s : String) (rest : List String) (head : String),
      netIncomeSentValue s = some (head, none) →
      parse_net_income_loop (s :: rest) = none) := by
  refine ⟨?_, ?_, ?_⟩
  · intro s u h
    unfold normalize_number
    rw [h]
  · intro caps rest h
    simp only [parse_revenue_loop]
    rw [h]
  · intro s rest head h
    unfold parse_net_income_loop
    rw [h]
    rfl

/-- The two-sentence splitting of the C7 counterexample text, as the
sentence splitter would produce it. -/
def c7sents : String → List String :=
  fun _ => ["Net income of , happened.", "Net loss of $5 million."]

/-- C7 counterexample: the first sentence matches the net-income
pattern with the unparsable capture ","; the claim requires the matcher
to continue with its remaining candidates — the second sentence would
yield −5.0 — but the code returns no value for the whole matcher. -/
theorem C7_counterexample_net_income_abort :
    parse_net_income c7sents "Net income of , happened. Net loss of $5 million."
      = none ∧
    parse_net_income_loop ["Net loss of $5 million."] = some (-5) := by
  constructor <;> decide

/-- C7 witness: the amended rules applied at "," (unparsable) and at the
aborting sentence. -/
theorem C7_unparsable_literal_witness :
    normalize_number "," none = none ∧
    parse_net_income_loop ["Net income of , happened."] = none :=
  ⟨C7_unparsable_literal.1 "," none (by decide),
   C7_unparsable_literal.2.2 "Net income of , happened." [] "income" (by decide)⟩

/-- C8: the transcript record uses the header-derived identity exactly
when ticker, quarter, year AND earnings date are all resolved from the
first lines of the text; if any of the four is missing, all four fields
are instead derived from the filename split on its delimiter; a field
the filename fallback also fails to resolve stays unset while the
document still yields an output record — for the filename 'ABC.txt'
with an uninformative text, only the ticker resolves and the remaining
fields are unset. -/
theorem C8_identity_fallback (P : Parsers) (file_name text : String) :
    ((truthyStr (extract_ticker_quarter_year_date text).1 = true ∧
      truthyStr (extract_ticker_quarter_year_date text).2.1 = true ∧
      truthyStr (extract_ticker_quarter_year_date text).2.2.1 = true ∧
      truthyStr (extract_ticker_quarter_year_date text).2.2.2 = true) →
      ((parse_transcript_file P file_name text).ticker
          = (extract_ticker_quarter_year_date text).1 ∧
        (parse_transcript_file P file_name text).quarter
          = (extract_ticker_quarter_year_date text).2.1 ∧
        (parse_transcript_file P file_name text).year
          = (extract_ticker_quarter_year_date text).2.2.1 ∧
        (parse_transcript_file P file_name text).earnings_date
          = (extract_ticker_quarter_year_date text).2.2.2)) ∧
    (¬(truthyStr (extract_ticker_quarter_year_date text).1 = true ∧
        truthyStr (extract_ticker_quarter_year_date text).2.1 = true ∧
        truthyStr (extract_ticker_quarter_year_date text).2.2.1 = true ∧
        truthyStr (extract_ticker_quarter_year_date text).2.2.2 = true) →
      ((parse_transcript_file P file_name text).ticker
          = (extract_from_filename file_name).1 ∧
        (parse_transcript_file P file_name text).quarter
          = (extract_from_filename file_name).2.1 ∧
        (parse_transcript_file P file_name text).year
          = (extract_from_filename file_name).2.2.1 ∧
        (parse_transcript_file P file_name text).earnings_date
          = (extract_from_filename file_name).2.2.2)) ∧
    (parse_transcript_file P file_name text).file_name = file_name ∧
    (parse_transcript_file P "ABC.txt" "hello").ticker = some "ABC" ∧
    (parse_transcript_file P "ABC.txt" "hello").quarter = none ∧
    (parse_transcript_file P "ABC.txt" "hello").year = none ∧
    (parse_transcript_file P "ABC.txt" "hello").earnings_date = none := by
  refine ⟨?_, ?_, rfl, rfl, rfl, rfl, rfl⟩
  · rintro ⟨h1, h2, h3, h4⟩
    have hc : (!truthyStr (extract_ticker_quarter_year_date text).1 ||
        !truthyStr (extract_ticker_quarter_year_date text).2.1 ||
        !truthyStr (extract_ticker_quarter_year_date text).2.2.1 ||
        !truthyStr (extract_ticker_quarter_year_date text).2.2.2) = false := by
      rw [h1, h2, h3, h4]
      rfl
    refine ⟨?_, ?_, ?_, ?_⟩ <;> simp only [parse_transcript_file, hc] <;> rfl
  · intro hneg
    have hc : (!truthyStr (extract_ticker_quarter_year_date text).1 ||
        !truthyStr (extract_ticker_quarter_year_date text).2.1 ||
        !truthyStr (extract_ticker_quarter_year_date text).2.2.1 ||
        !truthyStr (extract_ticker_quarter_year_date text).2.2.2) = true := by
      by_contra hcc
      apply hneg
      simp only [Bool.not_eq_true] at hcc
      simp only [Bool.or_eq_false_iff, Bool.not_eq_false'] at hcc
      exact ⟨hcc.1.1.1, hcc.1.1.2, hcc.1.2, hcc.2⟩
    refine ⟨?_, ?_, ?_, ?_⟩ <;> simp only [parse_transcript_file, hc] <;> rfl

/-- C8 witness: a full header resolves from the text; 'ABC.txt' with no
header yields only the ticker. -/
theorem C8_identity_fallback_witness :
    (parse_transcript_file constParsers "acme_q2_call.txt"
        "Acme Corp (NYSE:ACME) Q2 2023 Earnings Call\nJuly 30, 2023\nOperator: Good morning.").ticker
      = some "ACME" ∧
    (parse_transcript_file constParsers "ABC.txt" "hello").quarter = none := by
  have h := C8_identity_fallback constParsers "acme_q2_call.txt"
    "Acme Corp (NYSE:ACME) Q2 2023 Earnings Call\nJuly 30, 2023\nOperator: Good morning."
  have h1 := (h.1 (by refine ⟨?_, ?_, ?_, ?_⟩ <;> decide)).1
  refine ⟨?_, h.2.2.2.2.1⟩
  rw [h1]
  decide
